import Mathlib

/-!
Verification development for the thread-art tools: a nail-layout generator
(`thread_art_generator.py`) and a file decoder/validator on the renderer side
(`thread_art_visualizer.py`).  The generator's geometry is embedded over an
arbitrary linear ordered field with a floor (instantiated at `ℚ` for
computation and at `ℝ` for the circle, which needs `cos`/`sin`); the
decoder's dynamic checks are embedded over an explicit YAML-value type that
keeps the distinctions the Python code is sensitive to (int vs float vs bool
vs string vs sequence vs mapping).
-/

namespace ThreadArt

variable {α : Type} [LinearOrderedField α] [FloorRing α]

/-- Decimal rounding to six places: models Python's `round(x, 6)` used by the
generator on every emitted coordinate (idealised to exact arithmetic; the
tie-breaking rule never matters at the values the theorems touch). -/
def round6 (x : α) : α :=
  ((round (x * 1000000) : ℤ) : α) / 1000000

/-- Python's `%` on field values (floored modulo), as used by
`pos_on_perimeter = current_pos % perimeter` in `generate_square_nails`. -/
def pyMod (x m : α) : α := x - m * (⌊x / m⌋ : α)

/-- Embeds the body of the loop of `generate_square_nails`
(src/thread_art_generator.py lines 48-67): reduce the running position modulo
the perimeter 4.0 and map it through the four edge branches, rounding both
coordinates. -/
def squareNailAt (pos : α) : α × α :=
  let p := pyMod pos 4
  if p ≤ 1 then (round6 p, round6 0)
  else if p ≤ 2 then (round6 1, round6 (p - 1))
  else if p ≤ 3 then (round6 (1 - (p - 2)), round6 1)
  else (round6 0, round6 (1 - (p - 3)))

/-- The accumulation loop of `generate_square_nails`: one nail per iteration,
with `current_pos` incremented by `spacing` after each nail. -/
def squareNailsLoop (spacing : α) : ℕ → α → List (α × α)
  | 0, _ => []
  | n + 1, pos => squareNailAt pos :: squareNailsLoop spacing n (pos + spacing)

/-- Errors of the generator pipeline (`main` plus `generate_square_nails`):
every rejected input leads to a diagnostic and `sys.exit(1)`. -/
inductive GenError where
  | invalidParameter
  deriving DecidableEq

/-- Embeds `generate_square_nails` (src/thread_art_generator.py lines 34-70):
raises for fewer than 4 nails, otherwise runs the accumulation loop with
`spacing = 4.0 / num_nails` starting from `current_pos = 0.0`. -/
def generate_square_nails (num_nails : ℤ) : Except GenError (List (α × α)) :=
  if num_nails < 4 then .error .invalidParameter
  else .ok (squareNailsLoop (4 / (num_nails : α)) num_nails.toNat 0)

/-- Embeds `generate_circle_nails` (src/thread_art_generator.py lines 17-31):
nail `i` at angle `2·π·i/num_nails` on the circle centred at `(0.5, 0.5)` with
radius `0.5`, both coordinates rounded to 6 decimal places. -/
noncomputable def generate_circle_nails (num_nails : ℕ) : List (ℝ × ℝ) :=
  (List.range num_nails).map fun i : ℕ =>
    (round6 (0.5 + 0.5 * Real.cos (2 * Real.pi * (i : ℝ) / (num_nails : ℝ))),
     round6 (0.5 + 0.5 * Real.sin (2 * Real.pi * (i : ℝ) / (num_nails : ℝ))))

/-- The two supported shapes of the generator CLI. -/
inductive Shape where
  | circle
  | square
  deriving DecidableEq

/-- The generation entry point as the caller sees it: `main` of
src/thread_art_generator.py validates `num_nails <= 0` (both shapes) before
dispatching through `create_thread_art_file`; `generate_square_nails` itself
rejects counts below 4.  Every rejection surfaces as an error to the caller
instead of a layout. -/
noncomputable def generate (count : ℤ) (shape : Shape) : Except GenError (List (ℝ × ℝ)) :=
  if count ≤ 0 then .error .invalidParameter
  else
    match shape with
    | .circle => .ok (generate_circle_nails count.toNat)
    | .square => generate_square_nails count

/-- Modelled from the spec: the square algorithm's closed form in the spec's
own words (section 4.1): segment `[0,1)` is the bottom edge, `[1,2)` the right
edge, `[2,3)` the top edge, `[3,4)` the left edge, each linearly interpolated;
coordinates rounded to 6 places as section 4.1 states.  This is the
spec-side definition claim C3 compares against the implementation's loop. -/
def specSegmentPoint (p : α) : α × α :=
  if p < 1 then (round6 p, round6 0)
  else if p < 2 then (round6 1, round6 (p - 1))
  else if p < 3 then (round6 (1 - (p - 2)), round6 1)
  else (round6 0, round6 (1 - (p - 3)))

/-- Modelled from the spec: nail `i` sits at perimeter position
`(i·4/count) mod 4`, mapped through the segment formulas. -/
def specSquareNail (count : ℤ) (i : ℕ) : α × α :=
  specSegmentPoint (pyMod ((i : α) * 4 / (count : α)) 4)

/-- Perimeter position of square nail `i` as the loop accumulates it
(`i` increments of `spacing = 4/count` from `0.0`). -/
def nailPos (count : ℤ) (i : ℕ) : α := (i : α) * (4 / (count : α))

/-- A parsed YAML value as `yaml.safe_load` hands it to `load_thread_art`.
The constructors keep exactly the distinctions the Python validation code is
sensitive to: `int` vs `float` vs `bool` (a Python `bool` is an instance of
`int`), strings, `None`, sequences, and string-keyed mappings. -/
inductive Yaml (α : Type) where
  | intv (n : ℤ)
  | floatv (x : α)
  | boolv (b : Bool)
  | strv (s : String)
  | nullv
  | seq (items : List (Yaml α))
  | dict (entries : List (String × Yaml α))

/-- Outcomes of `load_thread_art` (src/thread_art_visualizer.py lines 19-55).
The first three are `ValueError`s the function raises itself and catches at
the bottom (diagnostic plus `sys.exit(1)`); `typeError` is a Python
`TypeError` escaping the function uncaught, since only `FileNotFoundError`,
`yaml.YAMLError` and `ValueError` are handled. -/
inductive LoadError (α : Type) where
  | malformedFormat
  | invalidNail (i : ℕ)
  | invalidThreadIndex (i : ℕ) (v : Yaml α)
  | typeError

/-- Numeric view used by Python's order comparisons: ints and floats compare
as numbers, and a `bool` compares as `1`/`0` (it subclasses `int`); anything
else is unordered against a number and raises `TypeError`. -/
def toNum : Yaml α → Option α
  | .intv n => some (n : α)
  | .floatv x => some x
  | .boolv b => some (if b then 1 else 0)
  | _ => none

/-- Python's chained comparison `0 <= v <= 1`: `none` models a `TypeError`
(non-numeric operand), otherwise the boolean result.  If `0 <= v` is false the
second comparison is skipped, but it could only raise when the first already
did, so one numeric test covers the chain. -/
def cmp01 (v : Yaml α) : Option Bool :=
  match toNum v with
  | none => none
  | some x => some (decide (0 ≤ x) && decide (x ≤ 1))

/-- The nails loop of `load_thread_art` (lines 32-37): entry `i` must be a
list of length 2, else `ValueError` (`InvalidNail i`); then
`0 <= x <= 1 and 0 <= y <= 1` with Python's short-circuit `and`, a false
result raising `ValueError` (`InvalidNail i`) and a non-numeric coordinate
raising an uncaught `TypeError`. -/
def validateNails : ℕ → List (Yaml α) → Except (LoadError α) Unit
  | _, [] => .ok ()
  | i, v :: rest =>
    match v with
    | .seq [x, y] =>
      match cmp01 x with
      | none => .error .typeError
      | some false => .error (.invalidNail i)
      | some true =>
        match cmp01 y with
        | none => .error .typeError
        | some false => .error (.invalidNail i)
        | some true => validateNails (i + 1) rest
    | _ => .error (.invalidNail i)

/-- Python's `isinstance(v, int)`: true for ints and for bools (a subclass). -/
def isInstInt : Yaml α → Bool
  | .intv _ => true
  | .boolv _ => true
  | _ => false

/-- The integer value of a Python `int` (with `True = 1`, `False = 0`). -/
def asInt : Yaml α → ℤ
  | .intv n => n
  | .boolv b => if b then 1 else 0
  | _ => 0

/-- The test the thread loop applies to one entry:
`isinstance(nail_idx, int) and 0 <= nail_idx <= max_nail_index` (the code
writes the negation; `or` short-circuits, so no `TypeError` is possible). -/
def threadEntryOk (maxIdx : ℤ) (v : Yaml α) : Bool :=
  isInstInt v && decide (0 ≤ asInt v) && decide (asInt v ≤ maxIdx)

/-- The thread loop of `load_thread_art` (lines 40-43): the first entry that
is not an in-range `int` raises `ValueError` reporting its position and the
offending value. -/
def validateThread (maxIdx : ℤ) : ℕ → List (Yaml α) → Except (LoadError α) Unit
  | _, [] => .ok ()
  | i, v :: rest =>
    if threadEntryOk maxIdx v then validateThread maxIdx (i + 1) rest
    else .error (.invalidThreadIndex i v)

/-- Python's `key in data`: key membership for a dict, element equality for a
list, substring test for a string; `TypeError` (`none`) for scalars such as
`None`, numbers and booleans. -/
def pyContains (key : String) : Yaml α → Option Bool
  | .dict es => some (es.any fun e => decide (e.1 = key))
  | .seq items =>
    some (items.any fun v =>
      match v with
      | .strv s => decide (s = key)
      | _ => false)
  | .strv s => some (decide (1 < (s.splitOn key).length))
  | _ => none

/-- Python's `data[key]` with a string key: only a dict supports it
(`none` models the `TypeError` a list or string would raise). -/
def pyGet (key : String) : Yaml α → Option (Yaml α)
  | .dict es => (es.find? fun e => decide (e.1 = key)).map (fun e => e.2)
  | _ => none

/-- Python's iteration `for v in x`: the items of a list, the one-character
strings of a string, the keys of a dict; `TypeError` (`none`) otherwise. -/
def pyIterate : Yaml α → Option (List (Yaml α))
  | .seq items => some items
  | .strv s => some (s.data.map fun c => .strv (String.singleton c))
  | .dict es => some (es.map fun e => .strv e.1)
  | _ => none

/-- Embeds `load_thread_art` (src/thread_art_visualizer.py lines 19-55) from
the parsed document on: check both keys are present, fetch both values,
validate every nail, then validate every thread entry against
`max_nail_index = len(nails) - 1`, and return the pair. -/
def load_thread_art (data : Yaml α) : Except (LoadError α) (List (Yaml α) × List (Yaml α)) :=
  match pyContains "nails" data with
  | none => .error .typeError
  | some false => .error .malformedFormat
  | some true =>
    match pyContains "thread" data with
    | none => .error .typeError
    | some false => .error .malformedFormat
    | some true =>
      match pyGet "nails" data, pyGet "thread" data with
      | some nailsVal, some threadVal =>
        match pyIterate nailsVal with
        | none => .error .typeError
        | some nails =>
          match validateNails 0 nails with
          | .error e => .error e
          | .ok _ =>
            match pyIterate threadVal with
            | none => .error .typeError
            | some thread =>
              match validateThread ((nails.length : ℤ) - 1) 0 thread with
              | .error e => .error e
              | .ok _ => .ok (nails, thread)
      | _, _ => .error .typeError

/-- A document whose top level is a mapping with exactly the two required
keys, as the generator writes and the decoder expects. -/
def mkDoc (nailsVal threadVal : Yaml α) : Yaml α :=
  .dict [("nails", nailsVal), ("thread", threadVal)]

/-- Embeds the data structure `create_thread_art_file`
(src/thread_art_generator.py lines 91-115) serialises and `yaml.safe_load`
parses back: each nail as a two-element sequence of floats, and an empty
thread.  Serialisation itself is an external capability; this is the emitted
document. -/
def create_thread_art_data (nails : List (α × α)) : Yaml α :=
  mkDoc (.seq (nails.map fun p => .seq [.floatv p.1, .floatv p.2])) (.seq [])

/-- How the Python checks classify one nails entry: `ok` passes, `bad` raises
the `ValueError` reported as an invalid nail, `crash` raises an uncaught
`TypeError` (a non-numeric coordinate reached by the chained comparison). -/
inductive VOutcome where
  | ok
  | bad
  | crash
  deriving DecidableEq

/-- The classification of one nails entry, read off the branches of the
nails loop of `load_thread_art`. -/
def nailOutcome : Yaml α → VOutcome
  | .seq [x, y] =>
    match cmp01 x with
    | none => .crash
    | some false => .bad
    | some true =>
      match cmp01 y with
      | none => .crash
      | some false => .bad
      | some true => .ok
  | _ => .bad

/-- Claim C5's notion of a valid nails entry, taken from the spec's words:
exactly a 2-element numeric sequence whose coordinates lie in `[0, 1]`
(booleans and strings are not numbers in the file format). -/
def specNailEntryOk : Yaml α → Bool
  | .seq [x, y] =>
    (match x, y with
      | .intv a, .intv b => decide ((0:α) ≤ (a:α)) && decide ((a:α) ≤ 1) &&
          decide ((0:α) ≤ (b:α)) && decide ((b:α) ≤ 1)
      | .intv a, .floatv b => decide ((0:α) ≤ (a:α)) && decide ((a:α) ≤ 1) &&
          decide (0 ≤ b) && decide (b ≤ 1)
      | .floatv a, .intv b => decide (0 ≤ a) && decide (a ≤ 1) &&
          decide ((0:α) ≤ (b:α)) && decide ((b:α) ≤ 1)
      | .floatv a, .floatv b => decide (0 ≤ a) && decide (a ≤ 1) &&
          decide (0 ≤ b) && decide (b ≤ 1)
      | _, _ => false)
  | _ => false

/-- Claim C6's notion of an integer thread entry, taken from the spec's
words: the file format's `thread` is a sequence of integers, so only an
`int` value qualifies (a YAML boolean is not an integer). -/
def specIntegerEntry : Yaml α → Bool
  | .intv _ => true
  | _ => false

/-- The conclusion of claim C1 at nail count `n`: the circle layout has
exactly `n` points, every coordinate lies in `[0, 1]`, point 0 is
`(1.0, 0.5)` after rounding, and point `i` is the rounded point at angle
`2·π·i/n` on the circle centred at `(0.5, 0.5)` with radius `0.5`. -/
def C1Prop (n : ℕ) : Prop :=
  (generate_circle_nails n).length = n ∧
  (∀ p ∈ generate_circle_nails n, 0 ≤ p.1 ∧ p.1 ≤ 1 ∧ 0 ≤ p.2 ∧ p.2 ≤ 1) ∧
  (generate_circle_nails n)[0]? = some ((1 : ℝ), (0.5 : ℝ)) ∧
  ∀ i : ℕ, i < n → (generate_circle_nails n)[i]? =
    some (round6 (0.5 + 0.5 * Real.cos (2 * Real.pi * (i : ℝ) / (n : ℝ))),
      round6 (0.5 + 0.5 * Real.sin (2 * Real.pi * (i : ℝ) / (n : ℝ))))

/-- The conclusion of claim C2 for a square layout `l` generated at count
`n`: exactly `n.toNat` points, every point exactly on the unit-square
boundary, point `i` the image of the strictly increasing perimeter position
`i·(4/n) ∈ [0, 4)`, so consecutive points monotonically advance along the
perimeter. -/
def C2Prop (n : ℤ) (l : List (α × α)) : Prop :=
  l.length = n.toNat ∧
  (∀ p ∈ l, p.1 = 0 ∨ p.1 = 1 ∨ p.2 = 0 ∨ p.2 = 1) ∧
  (∀ i : ℕ, i < l.length → l[i]? = some (squareNailAt (nailPos n i))) ∧
  (∀ i : ℕ, i < l.length → 0 ≤ nailPos (α := α) n i ∧ nailPos (α := α) n i < 4) ∧
  (∀ i j : ℕ, i < j → j < l.length → nailPos (α := α) n i < nailPos n j)

/-! Arithmetic facts about the rounding and modulo helpers. -/

theorem round6_eq_self {x : α} {m : ℤ} (h : x * 1000000 = (m : α)) : round6 x = x := by
  unfold round6
  rw [h, round_intCast, ← h]
  field_simp

theorem round6_zero : round6 (0 : α) = 0 :=
  round6_eq_self (m := 0) (by norm_num)

theorem round6_one : round6 (1 : α) = 1 :=
  round6_eq_self (m := 1000000) (by norm_num)

theorem round6_half : round6 ((0.5 : α)) = 0.5 :=
  round6_eq_self (m := 500000) (by norm_num)

theorem round6_mono {x y : α} (h : x ≤ y) : round6 x ≤ round6 y := by
  have hr : round (x * 1000000) ≤ round (y * 1000000) := by
    rw [round_eq, round_eq]
    exact Int.floor_mono (by nlinarith)
  have hr2 : ((round (x * 1000000) : ℤ) : α) ≤ ((round (y * 1000000) : ℤ) : α) :=
    Int.cast_le.mpr hr
  have hc : (0 : α) < 1000000 := by norm_num
  unfold round6
  exact (div_le_div_iff_of_pos_right hc).mpr hr2

theorem round6_mem01 {x : α} (h0 : 0 ≤ x) (h1 : x ≤ 1) :
    0 ≤ round6 x ∧ round6 x ≤ 1 := by
  constructor
  · calc (0 : α) = round6 0 := (round6_zero).symm
    _ ≤ round6 x := round6_mono h0
  · calc round6 x ≤ round6 1 := round6_mono h1
    _ = 1 := round6_one

theorem pyMod_nonneg {x m : α} (hm : 0 < m) : 0 ≤ pyMod x m := by
  have h1 : ((⌊x / m⌋ : ℤ) : α) ≤ x / m := Int.floor_le _
  have h2 : m * ((⌊x / m⌋ : ℤ) : α) ≤ m * (x / m) := by
    exact mul_le_mul_of_nonneg_left h1 hm.le
  have h3 : m * (x / m) = x := by field_simp
  unfold pyMod
  linarith

theorem pyMod_lt {x m : α} (hm : 0 < m) : pyMod x m < m := by
  have h1 : x / m < ((⌊x / m⌋ : ℤ) : α) + 1 := Int.lt_floor_add_one _
  have h2 : x < (((⌊x / m⌋ : ℤ) : α) + 1) * m := (div_lt_iff₀ hm).mp h1
  unfold pyMod
  nlinarith

theorem pyMod_eq_self {x m : α} (hm : 0 < m) (h0 : 0 ≤ x) (hx : x < m) :
    pyMod x m = x := by
  have hf : ⌊x / m⌋ = 0 :=
    Int.floor_eq_zero_iff.mpr ⟨div_nonneg h0 hm.le, (div_lt_one hm).mpr hx⟩
  unfold pyMod
  rw [hf]
  push_cast
  ring

/-! Facts about the square nail placement. -/

theorem squareNailAt_eq_spec {p : α} (h0 : 0 ≤ p) (h4 : p < 4) :
    squareNailAt p = specSegmentPoint p := by
  have hp : pyMod p 4 = p := pyMod_eq_self (by norm_num) h0 h4
  simp only [squareNailAt, specSegmentPoint, hp]
  split_ifs <;>
    first
      | rfl
      | (exfalso; linarith)
      | exact congrArg₂ Prod.mk (congrArg round6 (by linarith)) (congrArg round6 (by linarith))

theorem squareNailAt_boundary (pos : α) :
    (squareNailAt pos).1 = 0 ∨ (squareNailAt pos).1 = 1 ∨
      (squareNailAt pos).2 = 0 ∨ (squareNailAt pos).2 = 1 := by
  simp only [squareNailAt]
  split_ifs <;> simp [round6_zero, round6_one]

theorem squareNailAt_mem01 (pos : α) :
    0 ≤ (squareNailAt pos).1 ∧ (squareNailAt pos).1 ≤ 1 ∧
      0 ≤ (squareNailAt pos).2 ∧ (squareNailAt pos).2 ≤ 1 := by
  have hn : (0 : α) ≤ pyMod pos 4 := pyMod_nonneg (by norm_num)
  have hl : pyMod pos 4 < 4 := pyMod_lt (by norm_num)
  have h01 : (0 : α) ≤ 1 ∧ (1 : α) ≤ 1 := ⟨by norm_num, le_refl 1⟩
  simp only [squareNailAt]
  split_ifs with h1 h2 h3
  · have hx := round6_mem01 hn h1
    have hy := round6_mem01 (le_refl (0 : α)) (by norm_num : (0:α) ≤ 1)
    rw [round6_zero] at hy ⊢
    exact ⟨hx.1, hx.2, by norm_num, by norm_num⟩
  · have hy := round6_mem01 (x := pyMod pos 4 - 1) (by linarith) (by linarith)
    rw [round6_one]
    exact ⟨by norm_num, by norm_num, hy.1, hy.2⟩
  · have hx := round6_mem01 (x := 1 - (pyMod pos 4 - 2)) (by linarith) (by linarith)
    rw [round6_one]
    exact ⟨hx.1, hx.2, by norm_num, by norm_num⟩
  · have hy := round6_mem01 (x := 1 - (pyMod pos 4 - 3)) (by linarith) (by linarith)
    rw [round6_zero]
    exact ⟨by norm_num, by norm_num, hy.1, hy.2⟩

theorem squareNailsLoop_length (s : α) : ∀ (n : ℕ) (pos : α),
    (squareNailsLoop s n pos).length = n := by
  intro n
  induction n with
  | zero => intro pos; rfl
  | succ n ih => intro pos; simp [squareNailsLoop, ih]

theorem squareNailsLoop_getElem (s : α) : ∀ (n k : ℕ) (pos : α), k < n →
    (squareNailsLoop s n pos)[k]? = some (squareNailAt (pos + k * s)) := by
  intro n
  induction n with
  | zero => intro k pos hk; omega
  | succ n ih =>
    intro k pos hk
    match k with
    | 0 => simp [squareNailsLoop]
    | k + 1 =>
      have hk2 : k < n := by omega
      simp only [squareNailsLoop, List.getElem?_cons_succ]
      rw [ih k (pos + s) hk2]
      congr 1
      push_cast
      ring_nf

theorem squareNailsLoop_mem (s : α) : ∀ (n : ℕ) (pos : α) (q : α × α),
    q ∈ squareNailsLoop s n pos → ∃ t, q = squareNailAt t := by
  intro n
  induction n with
  | zero => intro pos q hq; simp [squareNailsLoop] at hq
  | succ n ih =>
    intro pos q hq
    simp only [squareNailsLoop, List.mem_cons] at hq
    rcases hq with hq | hq
    · exact ⟨pos, hq⟩
    · exact ih (pos + s) q hq

theorem squareNailAt_zero : squareNailAt (0 : α) = (0, 0) := by
  have hp : pyMod (0 : α) 4 = 0 := pyMod_eq_self (by norm_num) (le_refl 0) (by norm_num)
  simp only [squareNailAt, hp]
  rw [if_pos (by norm_num : (0 : α) ≤ 1), round6_zero]

theorem squareNailAt_one : squareNailAt (1 : α) = (1, 0) := by
  have hp : pyMod (1 : α) 4 = 1 := pyMod_eq_self (by norm_num) (by norm_num) (by norm_num)
  simp only [squareNailAt, hp]
  rw [if_pos (le_refl (1 : α)), round6_one, round6_zero]

theorem squareNailAt_two : squareNailAt (2 : α) = (1, 1) := by
  have hp : pyMod (2 : α) 4 = 2 := pyMod_eq_self (by norm_num) (by norm_num) (by norm_num)
  simp only [squareNailAt, hp]
  rw [if_neg (by norm_num : ¬ (2 : α) ≤ 1), if_pos (le_refl (2 : α)),
    show (2 : α) - 1 = 1 by norm_num, round6_one]

theorem squareNailAt_three : squareNailAt (3 : α) = (0, 1) := by
  have hp : pyMod (3 : α) 4 = 3 := pyMod_eq_self (by norm_num) (by norm_num) (by norm_num)
  simp only [squareNailAt, hp]
  rw [if_neg (by norm_num : ¬ (3 : α) ≤ 1), if_neg (by norm_num : ¬ (3 : α) ≤ 2),
    if_pos (le_refl (3 : α)), show (1 : α) - (3 - 2) = 0 by norm_num, round6_zero, round6_one]

theorem square_four : generate_square_nails (α := α) 4 = .ok [(0, 0), (1, 0), (1, 1), (0, 1)] := by
  rw [generate_square_nails, if_neg (by norm_num)]
  rw [show ((4 : ℤ) : α) = 4 by push_cast; ring, show (4 : α) / 4 = 1 by norm_num,
    show (4 : ℤ).toNat = 4 from rfl]
  simp only [squareNailsLoop]
  norm_num [squareNailAt_zero, squareNailAt_one, squareNailAt_two, squareNailAt_three]

/-! Facts about the circle nail placement. -/

theorem circle_length (n : ℕ) : (generate_circle_nails n).length = n := by
  unfold generate_circle_nails
  rw [List.length_map, List.length_range]

theorem circle_getElem {n i : ℕ} (h : i < n) :
    (generate_circle_nails n)[i]? =
      some (round6 (0.5 + 0.5 * Real.cos (2 * Real.pi * (i : ℝ) / (n : ℝ))),
        round6 (0.5 + 0.5 * Real.sin (2 * Real.pi * (i : ℝ) / (n : ℝ)))) := by
  unfold generate_circle_nails
  rw [List.getElem?_map, List.getElem?_range h]
  rfl

theorem circle_mem01 {n : ℕ} : ∀ p ∈ generate_circle_nails n,
    0 ≤ p.1 ∧ p.1 ≤ 1 ∧ 0 ≤ p.2 ∧ p.2 ≤ 1 := by
  intro p hp
  simp only [generate_circle_nails, List.mem_map, List.mem_range] at hp
  obtain ⟨i, _, rfl⟩ := hp
  have hc1 := Real.neg_one_le_cos (2 * Real.pi * (i : ℝ) / (n : ℝ))
  have hc2 := Real.cos_le_one (2 * Real.pi * (i : ℝ) / (n : ℝ))
  have hs1 := Real.neg_one_le_sin (2 * Real.pi * (i : ℝ) / (n : ℝ))
  have hs2 := Real.sin_le_one (2 * Real.pi * (i : ℝ) / (n : ℝ))
  have hx := round6_mem01 (x := 0.5 + 0.5 * Real.cos (2 * Real.pi * (i : ℝ) / (n : ℝ)))
    (by linarith) (by linarith)
  have hy := round6_mem01 (x := 0.5 + 0.5 * Real.sin (2 * Real.pi * (i : ℝ) / (n : ℝ)))
    (by linarith) (by linarith)
  exact ⟨hx.1, hx.2, hy.1, hy.2⟩

theorem circle_head {n : ℕ} (h : 0 < n) :
    (generate_circle_nails n)[0]? = some ((1 : ℝ), (0.5 : ℝ)) := by
  rw [circle_getElem h]
  have ha : 2 * Real.pi * ((0 : ℕ) : ℝ) / (n : ℝ) = 0 := by simp
  rw [ha, Real.cos_zero, Real.sin_zero,
    show (0.5 : ℝ) + 0.5 * 1 = 1 by norm_num,
    show (0.5 : ℝ) + 0.5 * 0 = 0.5 by norm_num, round6_one, round6_half]

theorem squareNailAt_eq_spec_of_mod (x : α) :
    squareNailAt x = specSegmentPoint (pyMod x 4) := by
  have h0 : (0 : α) ≤ pyMod x 4 := pyMod_nonneg (by norm_num)
  have h4 : pyMod x 4 < 4 := pyMod_lt (by norm_num)
  have hfix : pyMod (pyMod x 4) 4 = pyMod x 4 := pyMod_eq_self (by norm_num) h0 h4
  calc squareNailAt x = squareNailAt (pyMod x 4) := by
        simp only [squareNailAt, hfix]
    _ = specSegmentPoint (pyMod x 4) := squareNailAt_eq_spec h0 h4

/-- C1: for every `count > 0` the circle layout has exactly `count` points,
each coordinate within `[0,1]`, point 0 equal to `(1.0, 0.5)` after rounding,
and point `i` placed at angle `2·π·i/count` on the circle centred at
`(0.5, 0.5)` with radius `0.5`. -/
theorem c1_circle_layout (n : ℕ) (h : 0 < n) : C1Prop n :=
  ⟨circle_length n, circle_mem01, circle_head h, fun _ hi => circle_getElem hi⟩

/-- Witness for C1 at `count = 4`. -/
theorem c1_circle_layout_witness : 0 < 4 ∧ C1Prop 4 :=
  ⟨by norm_num, c1_circle_layout 4 (by norm_num)⟩

theorem generate_square_nails_ok {n : ℤ} (h : 4 ≤ n) :
    generate_square_nails (α := α) n =
      .ok (squareNailsLoop (4 / (n : α)) n.toNat 0) := by
  rw [generate_square_nails, if_neg (by omega)]

/-- C2: for every `count ≥ 4` the square layout has exactly `count` points,
every point lies exactly on the unit-square boundary (one coordinate is
exactly 0 or 1), consecutive points advance monotonically along the
perimeter, and `generate(4, square)` is exactly
`[(0,0), (1,0), (1,1), (0,1)]`. -/
theorem c2_square_layout (n : ℤ) (h : 4 ≤ n) (l : List (α × α))
    (hl : generate_square_nails n = .ok l) :
    C2Prop n l ∧
      generate_square_nails (α := α) 4 = .ok [(0, 0), (1, 0), (1, 1), (0, 1)] := by
  rw [generate_square_nails_ok h] at hl
  injection hl with hl
  subst hl
  have hn : (0 : α) < (n : α) := by
    have : ((4 : ℤ) : α) ≤ ((n : ℤ) : α) := Int.cast_le.mpr h
    push_cast at this
    linarith
  have hlen : (squareNailsLoop (4 / (n : α)) n.toNat 0).length = n.toNat :=
    squareNailsLoop_length _ _ _
  have hcast : ∀ i : ℕ, i < n.toNat → (i : α) < (n : α) := by
    intro i hi
    have h1 : (i : ℤ) < n := by omega
    have h2 : ((i : ℤ) : α) < ((n : ℤ) : α) := Int.cast_lt.mpr h1
    push_cast at h2
    exact h2
  refine ⟨⟨hlen, ?_, ?_, ?_, ?_⟩, square_four⟩
  · intro p hp
    obtain ⟨t, rfl⟩ := squareNailsLoop_mem _ _ _ _ hp
    exact squareNailAt_boundary t
  · intro i hi
    rw [hlen] at hi
    rw [squareNailsLoop_getElem _ _ _ _ hi]
    congr 1
    rw [nailPos]
    ring_nf
  · intro i hi
    rw [hlen] at hi
    constructor
    · exact mul_nonneg (Nat.cast_nonneg i) (div_nonneg (by norm_num) hn.le)
    · have h1 : (i : α) * (4 / (n : α)) < (n : α) * (4 / (n : α)) :=
        mul_lt_mul_of_pos_right (hcast i hi) (div_pos (by norm_num) hn)
      have h2 : (n : α) * (4 / (n : α)) = 4 := by field_simp
      rw [nailPos]
      linarith
  · intro i j hij hj
    rw [hlen] at hj
    exact mul_lt_mul_of_pos_right (Nat.cast_lt.mpr hij) (div_pos (by norm_num) hn)

/-- Witness for C2 at `count = 4` over `ℚ`. -/
theorem c2_square_layout_witness :
    C2Prop (α := ℚ) 4 [(0, 0), (1, 0), (1, 1), (0, 1)] ∧
      generate_square_nails (α := ℚ) 4 = .ok [(0, 0), (1, 0), (1, 1), (0, 1)] :=
  c2_square_layout 4 (by norm_num) _ square_four

/-- C3: the square-layout point `i` computed by the implementation's running
accumulation of the spacing equals the point obtained from the closed-form
perimeter position `(i·4/count) mod 4` mapped through the spec's four
half-open edge-segment formulas. -/
theorem c3_square_refinement (n : ℤ) (h : 4 ≤ n) (l : List (α × α))
    (hl : generate_square_nails n = .ok l) (i : ℕ) (hi : i < l.length) :
    l[i]? = some (specSquareNail n i) := by
  rw [generate_square_nails_ok h] at hl
  injection hl with hl
  subst hl
  rw [squareNailsLoop_length] at hi
  rw [squareNailsLoop_getElem _ _ _ _ hi]
  congr 1
  rw [squareNailAt_eq_spec_of_mod, specSquareNail]
  congr 1
  congr 1
  rw [mul_div_assoc]
  ring

/-- Witness for C3 at `count = 4`, `i = 2` over `ℚ`. -/
theorem c3_square_refinement_witness :
    ([(0, 0), (1, 0), (1, 1), (0, 1)] : List (ℚ × ℚ))[2]? = some (specSquareNail 4 2) :=
  c3_square_refinement 4 (by norm_num) _ square_four 2 (by norm_num)

/-- C4: for both shapes, a count of at most 0 is rejected with
`InvalidParameter`, and a square count below 4 is rejected with
`InvalidParameter`; the error is reported to the caller instead of a
layout. -/
theorem c4_parameter_validation (count : ℤ) (shape : Shape) :
    (count ≤ 0 → generate count shape = .error .invalidParameter) ∧
    (count < 4 → generate count .square = .error .invalidParameter) := by
  constructor
  · intro hc
    unfold generate
    rw [if_pos hc]
  · intro hc
    by_cases hc0 : count ≤ 0
    · unfold generate
      rw [if_pos hc0]
    · unfold generate
      rw [if_neg hc0]
      show generate_square_nails count = _
      rw [generate_square_nails, if_pos hc]

/-- Witness for C4 at `count = 0` (circle) and `count = 2` (square). -/
theorem c4_parameter_validation_witness :
    generate 0 .circle = .error .invalidParameter ∧
      generate 2 .square = .error .invalidParameter :=
  ⟨(c4_parameter_validation 0 .circle).1 le_rfl,
    (c4_parameter_validation 2 .square).2 (by norm_num)⟩

/-! Characterisation of the nails and thread validation loops. -/

theorem validateNails_cons (i : ℕ) (v : Yaml α) (rest : List (Yaml α)) :
    validateNails i (v :: rest) =
      match nailOutcome v with
      | .ok => validateNails (i + 1) rest
      | .bad => .error (.invalidNail i)
      | .crash => .error .typeError := by
  cases v with
  | seq items =>
    match items with
    | [] => rfl
    | [x] => rfl
    | x :: y :: z :: more => rfl
    | [x, y] =>
      simp only [validateNails, nailOutcome]
      cases cmp01 x with
      | none => rfl
      | some b =>
        cases b with
        | false => rfl
        | true =>
          cases cmp01 y with
          | none => rfl
          | some c => cases c <;> rfl
  | intv n => rfl
  | floatv q => rfl
  | boolv b => rfl
  | strv t => rfl
  | nullv => rfl
  | dict es => rfl

theorem validateNails_eq_invalidNail (l : List (Yaml α)) : ∀ (i k : ℕ),
    validateNails i l = .error (.invalidNail k) ↔
      ∃ pre v suf, l = pre ++ v :: suf ∧ k = i + pre.length ∧
        nailOutcome v = .bad ∧ ∀ u ∈ pre, nailOutcome u = .ok := by
  induction l with
  | nil =>
    intro i k
    constructor
    · intro h
      exact absurd h (by simp [validateNails])
    · rintro ⟨pre, v, suf, heq, -, -, -⟩
      exact absurd heq (by simp)
  | cons w rest ih =>
    intro i k
    rw [validateNails_cons]
    cases hw : nailOutcome w with
    | ok =>
      rw [ih (i + 1) k]
      constructor
      · rintro ⟨pre, v, suf, heq, hk, hbad, hpre⟩
        refine ⟨w :: pre, v, suf, by simp [heq], by simp; omega, hbad, ?_⟩
        intro u hu
        rcases List.mem_cons.mp hu with rfl | hu
        · exact hw
        · exact hpre u hu
      · rintro ⟨pre, v, suf, heq, hk, hbad, hpre⟩
        cases pre with
        | nil =>
          simp at heq
          rw [heq.1] at hw
          rw [hw] at hbad
          cases hbad
        | cons p pre2 =>
          simp only [List.cons_append, List.cons.injEq] at heq
          refine ⟨pre2, v, suf, heq.2, by simp at hk; omega, hbad, ?_⟩
          intro u hu
          exact hpre u (List.mem_cons_of_mem p hu)
    | bad =>
      constructor
      · intro h
        have hk : i = k := by
          simpa using h
        exact ⟨[], w, rest, by simp, by simp [hk], hw, by simp⟩
      · rintro ⟨pre, v, suf, heq, hk, hbad, hpre⟩
        cases pre with
        | nil =>
          simp at heq hk
          rw [hk]
        | cons p pre2 =>
          simp only [List.cons_append, List.cons.injEq] at heq
          have : nailOutcome w = VOutcome.ok := by
            rw [heq.1]
            exact hpre p (List.mem_cons_self p pre2)
          rw [hw] at this
          cases this
    | crash =>
      constructor
      · intro h
        simp at h
      · rintro ⟨pre, v, suf, heq, hk, hbad, hpre⟩
        cases pre with
        | nil =>
          simp at heq
          rw [heq.1] at hw
          rw [hw] at hbad
          cases hbad
        | cons p pre2 =>
          simp only [List.cons_append, List.cons.injEq] at heq
          have : nailOutcome w = VOutcome.ok := by
            rw [heq.1]
            exact hpre p (List.mem_cons_self p pre2)
          rw [hw] at this
          cases this

theorem validateNails_ok_iff (l : List (Yaml α)) : ∀ i : ℕ,
    validateNails i l = .ok () ↔ ∀ u ∈ l, nailOutcome u = .ok := by
  induction l with
  | nil => intro i; simp [validateNails]
  | cons w rest ih =>
    intro i
    rw [validateNails_cons]
    cases hw : nailOutcome w with
    | ok => simp [ih (i + 1), hw]
    | bad => simp [hw]
    | crash => simp [hw]

theorem validateNails_error_cases (l : List (Yaml α)) : ∀ (i : ℕ) (e : LoadError α),
    validateNails i l = .error e →
      e = .typeError ∨ ∃ k, e = .invalidNail k := by
  induction l with
  | nil => intro i e h; exact absurd h (by simp [validateNails])
  | cons w rest ih =>
    intro i e h
    rw [validateNails_cons] at h
    cases hw : nailOutcome w with
    | ok =>
      rw [hw] at h
      exact ih (i + 1) e h
    | bad =>
      rw [hw] at h
      simp at h
      exact Or.inr ⟨i, h.symm⟩
    | crash =>
      rw [hw] at h
      simp at h
      exact Or.inl h.symm

theorem validateThread_eq_invalid (m : ℤ) (t : List (Yaml α)) : ∀ (i k : ℕ) (w : Yaml α),
    validateThread m i t = .error (.invalidThreadIndex k w) ↔
      ∃ pre suf, t = pre ++ w :: suf ∧ k = i + pre.length ∧
        threadEntryOk m w = false ∧ ∀ u ∈ pre, threadEntryOk m u = true := by
  induction t with
  | nil =>
    intro i k w
    constructor
    · intro h
      exact absurd h (by simp [validateThread])
    · rintro ⟨pre, suf, heq, -, -, -⟩
      exact absurd heq (by simp)
  | cons v rest ih =>
    intro i k w
    unfold validateThread
    cases hv : threadEntryOk m v with
    | true =>
      rw [if_pos rfl]
      rw [ih (i + 1) k w]
      constructor
      · rintro ⟨pre, suf, heq, hk, hbad, hpre⟩
        refine ⟨v :: pre, suf, by simp [heq], by simp; omega, hbad, ?_⟩
        intro u hu
        rcases List.mem_cons.mp hu with rfl | hu
        · exact hv
        · exact hpre u hu
      · rintro ⟨pre, suf, heq, hk, hbad, hpre⟩
        cases pre with
        | nil =>
          simp at heq
          rw [heq.1] at hv
          rw [hv] at hbad
          cases hbad
        | cons p pre2 =>
          simp only [List.cons_append, List.cons.injEq] at heq
          refine ⟨pre2, suf, heq.2, by simp at hk; omega, hbad, ?_⟩
          intro u hu
          exact hpre u (List.mem_cons_of_mem p hu)
    | false =>
      rw [if_neg (by simp)]
      constructor
      · intro h
        simp only [Except.error.injEq, LoadError.invalidThreadIndex.injEq] at h
        obtain ⟨hk, hw⟩ := h
        exact ⟨[], rest, by simp [hw], by simp [hk], by rw [← hw]; exact hv, by simp⟩
      · rintro ⟨pre, suf, heq, hk, hbad, hpre⟩
        cases pre with
        | nil =>
          simp at heq hk
          rw [hk, heq.1]
        | cons p pre2 =>
          simp only [List.cons_append, List.cons.injEq] at heq
          have : threadEntryOk m v = true := by
            rw [heq.1]
            exact hpre p (List.mem_cons_self p pre2)
          rw [hv] at this
          cases this

theorem validateThread_ok_iff (m : ℤ) (t : List (Yaml α)) : ∀ i : ℕ,
    validateThread m i t = .ok () ↔ ∀ u ∈ t, threadEntryOk m u = true := by
  induction t with
  | nil => intro i; simp [validateThread]
  | cons v rest ih =>
    intro i
    unfold validateThread
    cases hv : threadEntryOk m v with
    | true => rw [if_pos rfl]; simp [ih (i + 1), hv]
    | false => rw [if_neg (by simp)]; simp [hv]

theorem validateThread_error_cases (m : ℤ) (t : List (Yaml α)) : ∀ (i : ℕ) (e : LoadError α),
    validateThread m i t = .error e → ∃ k w, e = .invalidThreadIndex k w := by
  induction t with
  | nil => intro i e h; exact absurd h (by simp [validateThread])
  | cons v rest ih =>
    intro i e h
    unfold validateThread at h
    cases hv : threadEntryOk m v with
    | true =>
      rw [if_pos hv] at h
      exact ih (i + 1) e h
    | false =>
      rw [if_neg (by simp [hv])] at h
      simp at h
      exact ⟨i, v, h.symm⟩

/-! Behaviour of the full decoder on well-shaped and ill-shaped documents. -/

theorem load_invalidNail_iff (l : List (Yaml α)) (tv : Yaml α) (k : ℕ) :
    load_thread_art (mkDoc (.seq l) tv) = .error (.invalidNail k) ↔
      validateNails 0 l = .error (.invalidNail k) := by
  have h1 : pyContains "nails" (mkDoc (Yaml.seq l) tv) = some true := rfl
  have h2 : pyContains "thread" (mkDoc (Yaml.seq l) tv) = some true := rfl
  have h3 : pyGet "nails" (mkDoc (Yaml.seq l) tv) = some (Yaml.seq l) := rfl
  have h4 : pyGet "thread" (mkDoc (Yaml.seq l) tv) = some tv := rfl
  have h5 : pyIterate (Yaml.seq l) = some l := rfl
  unfold load_thread_art
  simp only [h1, h2, h3, h4, h5]
  cases hv : validateNails 0 l with
  | error e => simp
  | ok u =>
    cases u
    constructor
    · intro h
      exfalso
      split at h
      · rename_i e heq
        exact absurd heq (by simp)
      · split at h
        · simp at h
        · split at h
          · rename_i e2 hvt
            simp only [Except.error.injEq] at h
            obtain ⟨k2, w2, he⟩ := validateThread_error_cases _ _ _ _ hvt
            rw [he] at h
            exact LoadError.noConfusion h
          · simp at h
    · intro h
      simp at h

theorem load_invalidThreadIndex_iff (l t : List (Yaml α)) (k : ℕ) (w : Yaml α) :
    load_thread_art (mkDoc (.seq l) (.seq t)) = .error (.invalidThreadIndex k w) ↔
      validateNails 0 l = .ok () ∧
        validateThread ((l.length : ℤ) - 1) 0 t = .error (.invalidThreadIndex k w) := by
  have h1 : pyContains "nails" (mkDoc (Yaml.seq l) (Yaml.seq t)) = some true := rfl
  have h2 : pyContains "thread" (mkDoc (Yaml.seq l) (Yaml.seq t)) = some true := rfl
  have h3 : pyGet "nails" (mkDoc (Yaml.seq l) (Yaml.seq t)) = some (Yaml.seq l) := rfl
  have h4 : pyGet "thread" (mkDoc (Yaml.seq l) (Yaml.seq t)) = some (Yaml.seq t) := rfl
  have h5 : pyIterate (Yaml.seq l) = some l := rfl
  have h6 : pyIterate (Yaml.seq t) = some t := rfl
  unfold load_thread_art
  simp only [h1, h2, h3, h4, h5, h6]
  cases hv : validateNails 0 l with
  | error e =>
    constructor
    · intro h
      simp only [Except.error.injEq] at h
      rcases validateNails_error_cases _ _ _ hv with he | ⟨k2, he⟩
      · rw [he] at h
        exact LoadError.noConfusion h
      · rw [he] at h
        exact LoadError.noConfusion h
    · rintro ⟨hok, -⟩
      exact absurd hok (by simp)
  | ok u =>
    cases u
    constructor
    · intro h
      refine ⟨rfl, ?_⟩
      split at h
      · rename_i e heq
        exact absurd heq (by simp)
      · split at h
        · rename_i e2 hvt
          simp only [Except.error.injEq] at h
          rw [hvt, h]
        · simp at h
    · rintro ⟨-, hvt⟩
      rw [hvt]

theorem load_ok_inv (d : Yaml α) (ns ts : List (Yaml α))
    (h : load_thread_art d = .ok (ns, ts)) :
    validateNails 0 ns = .ok () ∧ validateThread ((ns.length : ℤ) - 1) 0 ts = .ok () := by
  unfold load_thread_art at h
  split at h
  · exact absurd h (by simp)
  · exact absurd h (by simp)
  · split at h
    · exact absurd h (by simp)
    · exact absurd h (by simp)
    · split at h
      · split at h
        · exact absurd h (by simp)
        · split at h
          · exact absurd h (by simp)
          · split at h
            · exact absurd h (by simp)
            · split at h
              · exact absurd h (by simp)
              · simp only [Except.ok.injEq, Prod.mk.injEq] at h
                obtain ⟨hn, ht⟩ := h
                subst hn
                subst ht
                exact ⟨by assumption, by assumption⟩
      · exact absurd h (by simp)

/-- C5 (amended): the decoder fails with `InvalidNail i` exactly when entry
`i` of `nails` is the first offending entry and its failure is one the code
detects by value: it is not a 2-element sequence, or its coordinates are
order-comparable against numbers (ints, floats or booleans, the latter as
0/1) with a comparison coming out false.  A first offending entry whose
compared coordinate is a string, `None` or a nested structure instead makes
the comparison `0 <= x` raise an uncaught `TypeError`, so no `InvalidNail`
error is reported there (claim C5's original "iff" fails on such entries,
see the counterexample). -/
theorem c5_invalid_nail_iff (l : List (Yaml α)) (tv : Yaml α) (k : ℕ) :
    load_thread_art (mkDoc (.seq l) tv) = .error (.invalidNail k) ↔
      ∃ pre v suf, l = pre ++ v :: suf ∧ pre.length = k ∧
        nailOutcome v = .bad ∧ ∀ u ∈ pre, nailOutcome u = .ok := by
  rw [load_invalidNail_iff, validateNails_eq_invalidNail]
  constructor
  · rintro ⟨pre, v, suf, heq, hk, hbad, hpre⟩
    exact ⟨pre, v, suf, heq, by omega, hbad, hpre⟩
  · rintro ⟨pre, v, suf, heq, hk, hbad, hpre⟩
    exact ⟨pre, v, suf, heq, by omega, hbad, hpre⟩

/-- Counterexample to C5 as stated: the nails entry `["a", "b"]` is not a
2-element numeric sequence, so the claim requires `InvalidNail` citing index
0; the code instead evaluates `0 <= "a"`, which raises an uncaught
`TypeError` (not caught by the `except ValueError` handler). -/
theorem c5_counterexample :
    specNailEntryOk (Yaml.seq [Yaml.strv "a", Yaml.strv "b"] : Yaml ℚ) = false ∧
    load_thread_art (mkDoc (.seq [.seq [.strv "a", .strv "b"]]) (.seq []) : Yaml ℚ) =
      .error .typeError ∧
    load_thread_art (mkDoc (.seq [.seq [.strv "a", .strv "b"]]) (.seq []) : Yaml ℚ) ≠
      .error (.invalidNail 0) := by
  refine ⟨rfl, rfl, ?_⟩
  rw [show load_thread_art (mkDoc (.seq [.seq [.strv "a", .strv "b"]]) (.seq []) : Yaml ℚ) =
    Except.error LoadError.typeError from rfl]
  simp

/-- C6 (amended): with both top-level values sequences, the decoder fails
with `InvalidThreadIndex (i, v)` exactly when every nails entry validates and
entry `i` of `thread` is the first entry failing
`isinstance(v, int) and 0 <= v <= len(nails) - 1`, where Python's
`isinstance(v, int)` also accepts booleans (as 0/1).  A YAML boolean is
therefore accepted as a thread index even though the format calls for
integers (claim C6's original "iff" fails there, see the counterexample). -/
theorem c6_invalid_thread_iff (l t : List (Yaml α)) (k : ℕ) (w : Yaml α) :
    load_thread_art (mkDoc (.seq l) (.seq t)) = .error (.invalidThreadIndex k w) ↔
      validateNails 0 l = .ok () ∧
        ∃ pre suf, t = pre ++ w :: suf ∧ pre.length = k ∧
          threadEntryOk ((l.length : ℤ) - 1) w = false ∧
          ∀ u ∈ pre, threadEntryOk ((l.length : ℤ) - 1) u = true := by
  rw [load_invalidThreadIndex_iff, validateThread_eq_invalid]
  constructor
  · rintro ⟨hok, pre, suf, heq, hk, hbad, hpre⟩
    exact ⟨hok, pre, suf, heq, by omega, hbad, hpre⟩
  · rintro ⟨hok, pre, suf, heq, hk, hbad, hpre⟩
    exact ⟨hok, pre, suf, heq, by omega, hbad, hpre⟩

/-- Counterexample to C6 as stated: with two valid nails and
`thread: [true]`, entry 0 of `thread` is not an integer, so the claim
requires an `InvalidThreadIndex` failure; the code accepts the boolean
(`isinstance(True, int)` holds and `0 <= True <= 1`) and the load
succeeds. -/
theorem c6_counterexample :
    specIntegerEntry (Yaml.boolv true : Yaml ℚ) = false ∧
    load_thread_art (mkDoc (.seq [.seq [.intv 0, .intv 0], .seq [.intv 1, .intv 1]])
        (.seq [.boolv true]) : Yaml ℚ) =
      .ok ([.seq [.intv 0, .intv 0], .seq [.intv 1, .intv 1]], [.boolv true]) :=
  ⟨rfl, rfl⟩

/-- C7 (amended): the decoder reports `MalformedFormat` (a caught
`ValueError`, hence diagnostic plus non-zero exit) exactly when the
membership tests run and a required key is missing; when the parsed document
does not support `in` at all (`None`, a number or a boolean at top level),
the membership test itself raises an uncaught `TypeError` instead of the
promised diagnostic-and-exit behaviour (claim C7's "never an uncaught
crash" fails there, see the counterexample). -/
theorem c7_malformed_behaviour (d : Yaml α) :
    (load_thread_art d = .error .malformedFormat ↔
      (pyContains "nails" d = some false ∨
        (pyContains "nails" d = some true ∧ pyContains "thread" d = some false))) ∧
    (pyContains "nails" d = none → load_thread_art d = .error .typeError) := by
  constructor
  · constructor
    · intro h
      unfold load_thread_art at h
      split at h
      · exact absurd h (by simp)
      · rename_i heq
        exact Or.inl heq
      · rename_i heq1
        split at h
        · exact absurd h (by simp)
        · rename_i heq2
          exact Or.inr ⟨heq1, heq2⟩
        · exfalso
          split at h
          · split at h
            · exact absurd h (by simp)
            · split at h
              · rename_i e hv
                simp only [Except.error.injEq] at h
                rcases validateNails_error_cases _ _ _ hv with he | ⟨k2, he⟩
                · rw [he] at h
                  exact LoadError.noConfusion h
                · rw [he] at h
                  exact LoadError.noConfusion h
              · split at h
                · exact absurd h (by simp)
                · split at h
                  · rename_i e2 hvt
                    simp only [Except.error.injEq] at h
                    obtain ⟨k2, w2, he⟩ := validateThread_error_cases _ _ _ _ hvt
                    rw [he] at h
                    exact LoadError.noConfusion h
                  · exact absurd h (by simp)
          · exact absurd h (by simp)
    · intro hor
      rcases hor with hf | ⟨ht, hf⟩
      · unfold load_thread_art
        simp only [hf]
      · unfold load_thread_art
        simp only [ht, hf]
  · intro hn
    unfold load_thread_art
    simp only [hn]

/-- Counterexample to C7 as stated: an empty file parses to `None`, which
is not a mapping, so the claim requires a `MalformedFormat` failure with a
printed diagnostic and clean exit; the code instead evaluates
`'nails' not in None`, which raises an uncaught `TypeError` (a crash with a
traceback, not the promised diagnostic path). -/
theorem c7_counterexample :
    load_thread_art (Yaml.nullv : Yaml ℚ) = .error .typeError ∧
    load_thread_art (Yaml.nullv : Yaml ℚ) ≠ .error .malformedFormat := by
  refine ⟨rfl, ?_⟩
  rw [show load_thread_art (Yaml.nullv : Yaml ℚ) = Except.error LoadError.typeError from rfl]
  simp

/-- Counterexample to C9 as stated: the document `nails: []`, `thread: []`
loads successfully and returns an empty nails sequence, so a successful load
does not guarantee a non-empty Layout. -/
theorem c9_counterexample :
    load_thread_art (mkDoc (Yaml.seq []) (Yaml.seq []) : Yaml ℚ) =
      .ok (([] : List (Yaml ℚ)), ([] : List (Yaml ℚ))) := rfl

/-- C9 (amended): a successful load returns a non-empty nails sequence
whenever the thread is non-empty (an in-range index needs
`len(nails) >= 1`); only the degenerate file with both sequences empty
loads with an empty Layout. -/
theorem c9_nonempty_amended (d : Yaml α) (ns ts : List (Yaml α))
    (h : load_thread_art d = .ok (ns, ts)) (hts : ts ≠ []) : ns ≠ [] := by
  obtain ⟨-, hvt⟩ := load_ok_inv d ns ts h
  intro hns
  subst hns
  cases ts with
  | nil => exact hts rfl
  | cons v rest =>
    have hall := (validateThread_ok_iff _ _ _).mp hvt v (List.mem_cons_self v rest)
    simp only [threadEntryOk, Bool.and_eq_true, decide_eq_true_eq] at hall
    obtain ⟨⟨-, h2⟩, h3⟩ := hall
    simp only [List.length_nil] at h3
    omega

/-- Witness for C9 (amended): a one-nail file with `thread: [0]`. -/
theorem c9_nonempty_amended_witness :
    ([Yaml.seq [Yaml.intv 0, Yaml.intv 0]] : List (Yaml ℚ)) ≠ [] :=
  c9_nonempty_amended (mkDoc (.seq [.seq [.intv 0, .intv 0]]) (.seq [.intv 0]))
    [Yaml.seq [Yaml.intv 0, Yaml.intv 0]] [Yaml.intv 0] (by rfl) (by simp)

/-- C10: after a successful load, every thread entry is an `int` (in
Python's sense) whose value lies in `[0, len(nails) - 1]`, so every
`nails[t]` access the renderer performs — for each polyline point and for
the `thread[0]`/`thread[-1]` start and end markers — is in bounds. -/
theorem c10_renderer_indices (d : Yaml α) (ns ts : List (Yaml α))
    (h : load_thread_art d = .ok (ns, ts)) :
    ∀ v ∈ ts, isInstInt v = true ∧ 0 ≤ asInt v ∧ asInt v < (ns.length : ℤ) := by
  obtain ⟨-, hvt⟩ := load_ok_inv d ns ts h
  intro v hv
  have hall := (validateThread_ok_iff _ _ _).mp hvt v hv
  simp only [threadEntryOk, Bool.and_eq_true, decide_eq_true_eq] at hall
  obtain ⟨⟨h1, h2⟩, h3⟩ := hall
  exact ⟨h1, h2, by omega⟩

/-- Witness for C10: a two-nail file with `thread: [1, 0]`, checked at the
entry `1`. -/
theorem c10_renderer_indices_witness :
    isInstInt (Yaml.intv (α := ℚ) 1) = true ∧ 0 ≤ asInt (Yaml.intv (α := ℚ) 1) ∧
      asInt (Yaml.intv (α := ℚ) 1) <
        (([Yaml.seq [Yaml.intv 0, Yaml.intv 0],
            Yaml.seq [Yaml.intv 1, Yaml.intv 1]] : List (Yaml ℚ)).length : ℤ) :=
  c10_renderer_indices
    (mkDoc (.seq [.seq [.intv 0, .intv 0], .seq [.intv 1, .intv 1]])
      (.seq [.intv 1, .intv 0]))
    [Yaml.seq [Yaml.intv 0, Yaml.intv 0], Yaml.seq [Yaml.intv 1, Yaml.intv 1]]
    [Yaml.intv 1, Yaml.intv 0] (by rfl) (Yaml.intv 1) (by simp)

/-! The encode-then-decode round trip (claim C8). -/

theorem nailOutcome_floatPair {x y : α} (hx0 : 0 ≤ x) (hx1 : x ≤ 1)
    (hy0 : 0 ≤ y) (hy1 : y ≤ 1) :
    nailOutcome (Yaml.seq [Yaml.floatv x, Yaml.floatv y]) = .ok := by
  simp only [nailOutcome, cmp01, toNum]
  rw [decide_eq_true hx0, decide_eq_true hx1, decide_eq_true hy0, decide_eq_true hy1]
  rfl

theorem generate_mem01 {count : ℤ} {shape : Shape} {pts : List (ℝ × ℝ)}
    (h : generate count shape = .ok pts) :
    ∀ p ∈ pts, 0 ≤ p.1 ∧ p.1 ≤ 1 ∧ 0 ≤ p.2 ∧ p.2 ≤ 1 := by
  cases shape with
  | circle =>
    unfold generate at h
    by_cases hc : count ≤ 0
    · rw [if_pos hc] at h
      exact absurd h (by simp)
    · rw [if_neg hc] at h
      simp only [Except.ok.injEq] at h
      subst h
      exact circle_mem01
  | square =>
    unfold generate at h
    by_cases hc : count ≤ 0
    · rw [if_pos hc] at h
      exact absurd h (by simp)
    · rw [if_neg hc] at h
      unfold generate_square_nails at h
      by_cases hc4 : count < 4
      · rw [if_pos hc4] at h
        exact absurd h (by simp)
      · rw [if_neg hc4] at h
        simp only [Except.ok.injEq] at h
        subst h
        intro p hp
        obtain ⟨t, rfl⟩ := squareNailsLoop_mem _ _ _ _ hp
        exact squareNailAt_mem01 t

theorem load_create_data (pts : List (α × α))
    (hb : ∀ p ∈ pts, 0 ≤ p.1 ∧ p.1 ≤ 1 ∧ 0 ≤ p.2 ∧ p.2 ≤ 1) :
    load_thread_art (create_thread_art_data pts) =
      .ok (pts.map fun p => Yaml.seq [.floatv p.1, .floatv p.2], ([] : List (Yaml α))) := by
  have hv : validateNails 0 (pts.map fun p => Yaml.seq [.floatv p.1, .floatv p.2]) = .ok () := by
    rw [validateNails_ok_iff]
    intro u hu
    rw [List.mem_map] at hu
    obtain ⟨p, hp, rfl⟩ := hu
    obtain ⟨hb1, hb2, hb3, hb4⟩ := hb p hp
    exact nailOutcome_floatPair hb1 hb2 hb3 hb4
  have h1 : pyContains "nails" (create_thread_art_data pts) = some true := rfl
  have h2 : pyContains "thread" (create_thread_art_data pts) = some true := rfl
  have h3 : pyGet "nails" (create_thread_art_data pts) =
      some (Yaml.seq (pts.map fun p => Yaml.seq [.floatv p.1, .floatv p.2])) := rfl
  have h4 : pyGet "thread" (create_thread_art_data pts) = some (Yaml.seq []) := rfl
  have h5 : pyIterate (Yaml.seq (pts.map fun p => Yaml.seq [.floatv p.1, .floatv p.2])) =
      some (pts.map fun p => Yaml.seq [.floatv p.1, .floatv p.2]) := rfl
  have h6 : pyIterate (Yaml.seq ([] : List (Yaml α))) = some [] := rfl
  have h7 : validateThread
      (((pts.map fun p => Yaml.seq [Yaml.floatv p.1, Yaml.floatv p.2]).length : ℤ) - 1) 0
      ([] : List (Yaml α)) = .ok () := rfl
  unfold load_thread_art
  simp only [h1, h2, h3, h4, h5, h6, h7, hv]

/-- C8: for every count and shape the generator accepts, encoding the
generated layout into the file structure and decoding it with
`load_thread_art` succeeds and returns the nail coordinates exactly (hence
within the claimed `1e-6` tolerance) together with an empty thread path. -/
theorem c8_roundtrip (count : ℤ) (shape : Shape) (pts : List (ℝ × ℝ))
    (h : generate count shape = .ok pts) :
    load_thread_art (create_thread_art_data pts) =
      .ok (pts.map fun p => Yaml.seq [.floatv p.1, .floatv p.2], ([] : List (Yaml ℝ))) :=
  load_create_data pts (generate_mem01 h)

theorem generate_one_circle : generate 1 .circle = .ok [((1 : ℝ), (0.5 : ℝ))] := by
  have h0 : generate 1 .circle = .ok (generate_circle_nails 1) := by rfl
  rw [h0]
  unfold generate_circle_nails
  rw [show List.range 1 = [0] from rfl]
  simp only [List.map_cons, List.map_nil]
  have ha : 2 * Real.pi * ((0 : ℕ) : ℝ) / ((1 : ℕ) : ℝ) = 0 := by simp
  rw [ha, Real.cos_zero, Real.sin_zero,
    show (0.5 : ℝ) + 0.5 * 1 = 1 by norm_num,
    show (0.5 : ℝ) + 0.5 * 0 = 0.5 by norm_num, round6_one, round6_half]

/-- Witness for C8 at `generate(1, circle)`. -/
theorem c8_roundtrip_witness :
    load_thread_art (create_thread_art_data [((1 : ℝ), (0.5 : ℝ))]) =
      .ok ([Yaml.seq [Yaml.floatv (1 : ℝ), Yaml.floatv (0.5 : ℝ)]], ([] : List (Yaml ℝ))) :=
  c8_roundtrip 1 .circle [((1 : ℝ), (0.5 : ℝ))] generate_one_circle

end ThreadArt
